import Mathlib

/-!
Verification of the Rwanda trade analysis scripts.

This file gives a shallow embedding, in Lean, of the pure row-processing and
statistics logic of the Python scripts under `python_processing/`:

* `commodity_data_processor.py` (trend analysis, commodity row extraction),
* `process_exports_commodity.py` (share percentages),
* `rwanda_trade_predictor.py` (forecast fallbacks, ensemble dispatch,
  country/commodity extraction, JSON type conversion),
* `enhanced_export_analyzer.py` (country extraction, sentinel skipping,
  growth/CAGR, NaN scrubbing at serialization),
* `trade_analytics_pipeline.py` (country extraction, CAGR, HHI).

Spreadsheet cells are modelled by the `Cell` type; Python floats are modelled
by `ℚ` (all comparisons and arithmetic in the embedded code paths are exact),
except where the source genuinely computes a real power, where `ℝ` is used.
-/

/-- A spreadsheet cell as seen by the scripts after `pandas` reads a sheet:
a numeric value, a string, or a missing value (`NaN`, for which `pd.isna` /
`pd.notna` is the test applied throughout the sources). -/
inductive Cell where
  | num (q : ℚ)
  | str (s : String)
  | blank
  deriving DecidableEq, Repr

/-- Value of a (non-empty) list of digit characters, most significant first. -/
def digitsVal (cs : List Char) : ℕ :=
  cs.foldl (fun a c => a * 10 + (c.toNat - 48)) 0

/-- Leading and trailing whitespace removed: Python `s.strip()` (on the
character list; the library `String.trim` is avoided because its `Substring`
internals do not reduce in the kernel). -/
def trimChars (cs : List Char) : List Char :=
  ((cs.dropWhile Char.isWhitespace).reverse.dropWhile Char.isWhitespace).reverse

/-- Python `s.strip()`. -/
def pyStrip (s : String) : String :=
  ⟨trimChars s.data⟩

/-- Python `s.lower()` (ASCII, which covers every string the scripts
compare). -/
def pyLower (s : String) : String :=
  ⟨s.data.map Char.toLower⟩

/-- Split a character list at every `'.'` (Python `s.split('.')` for the
single separator used by the scripts). -/
def splitDot : List Char → List (List Char)
  | [] => [[]]
  | c :: rest =>
    match splitDot rest with
    | [] => [[]]
    | h :: t => if c = '.' then [] :: h :: t else (c :: h) :: t

/-- Model of Python `float(s)` on strings, restricted to plain decimal
literals: optional leading minus sign, digits, optionally one decimal point
(`"5"`, `"-3.25"`, `"5."`, `".5"`).  Returns `none` where Python raises
`ValueError`.  (Python additionally accepts exponents, `inf` and `nan`;
no claim in this development depends on those forms.) -/
def pyFloat? (s : String) : Option ℚ :=
  let cs := trimChars s.data
  let neg : Bool := match cs with
    | '-' :: _ => true
    | _ => false
  let body : List Char := match cs with
    | '-' :: rest => rest
    | _ => cs
  let signed : ℚ → ℚ := fun v => if neg then -v else v
  match splitDot body with
  | [ip] =>
    if ip ≠ [] ∧ ip.all Char.isDigit then
      some (signed (digitsVal ip : ℚ))
    else none
  | [ip, fp] =>
    if (ip ≠ [] ∨ fp ≠ []) ∧ ip.all Char.isDigit ∧ fp.all Char.isDigit then
      some (signed ((digitsVal ip : ℚ) + (digitsVal fp : ℚ) / (10 : ℚ) ^ fp.length))
    else none
  | _ => none

/-- `commodity_data_processor.CommodityDataProcessor.analyze_trend`:

    if len(values) < 3: return 'Insufficient Data'
    recent = values[-3:]
    if recent[2] > recent[1] > recent[0]:   return 'Strong Growth'
    elif recent[2] > recent[1]:             return 'Moderate Growth'
    elif recent[2] < recent[1] < recent[0]: return 'Declining'
    else:                                   return 'Stable'
-/
def analyze_trend (values : List ℚ) : String :=
  if values.length < 3 then "Insufficient Data"
  else
    let recent := values.drop (values.length - 3)
    let r0 := recent.getD 0 0
    let r1 := recent.getD 1 0
    let r2 := recent.getD 2 0
    if r2 > r1 ∧ r1 > r0 then "Strong Growth"
    else if r2 > r1 then "Moderate Growth"
    else if r2 < r1 ∧ r1 < r0 then "Declining"
    else "Stable"

/-- C1 (amended): `analyze_trend` — the implementation of the spec's
`qualitative_trend` — computes the qualitative label from the last three
points exactly as the spec states — "Strong Growth" iff they are strictly
increasing, "Moderate Growth" iff only the last exceeds the middle,
"Declining" iff strictly decreasing, otherwise "Stable"; fewer than three
points give "Insufficient Data"; and `analyze_trend [90, 100, 80]` is
"Stable", not "Declining".  The trend label assigned by
`process_exports_commodity` follows a different rule (thresholds on the
latest growth rate) and labels that same series "Declining"; see
`exports_commodity_trend_declining`. -/
theorem analyze_trend_spec (a b c : ℚ) (vs ws : List ℚ) (hw : ws.length < 3) :
    analyze_trend (vs ++ [a, b, c]) =
      (if c > b ∧ b > a then "Strong Growth"
       else if c > b then "Moderate Growth"
       else if c < b ∧ b < a then "Declining"
       else "Stable")
    ∧ analyze_trend ws = "Insufficient Data"
    ∧ analyze_trend [90, 100, 80] = "Stable" := by
  refine ⟨?_, ?_, by decide⟩
  · have hlen : (vs ++ [a, b, c]).length = vs.length + 3 := by simp
    have hnot : ¬ (vs ++ [a, b, c]).length < 3 := by omega
    have hdrop : (vs ++ [a, b, c]).drop ((vs ++ [a, b, c]).length - 3) = [a, b, c] := by
      rw [hlen]
      have : vs.length + 3 - 3 = vs.length := by omega
      rw [this]
      exact List.drop_left vs [a, b, c]
    simp only [analyze_trend, hnot, if_false, hdrop]
    rfl
  · simp [analyze_trend, hw]

/-- C1 witness: the spec equation instantiated at the series `[90, 100, 80]`
(and the short-series clause at the empty list). -/
theorem analyze_trend_spec_witness :
    analyze_trend [90, 100, 80] =
      (if (80 : ℚ) > 100 ∧ (100 : ℚ) > 90 then "Strong Growth"
       else if (80 : ℚ) > 100 then "Moderate Growth"
       else if (80 : ℚ) < 100 ∧ (100 : ℚ) < 90 then "Declining"
       else "Stable")
    ∧ analyze_trend [] = "Insufficient Data" := by
  have h := analyze_trend_spec 90 100 80 [] [] (by decide)
  exact ⟨h.1, h.2.1⟩

/-- The keys of `ComprehensiveRwandaTradePredictor.__init__`'s `self.models`
dictionary (`rwanda_trade_predictor.py`):

    self.models = \x7b'exp_smooth': ..., 'arima': ..., 'sarimax': ...,
                   'linear_trend': ..., 'ensemble': ...\x7d
-/
def predictorModelKeys : List String :=
  ["exp_smooth", "arima", "sarimax", "linear_trend", "ensemble"]

/-- The `methods` list iterated by `_forecast_ensemble`:

    methods = ['exponential_smoothing', 'arima', 'linear_trend']
-/
def ensembleComponentMethods : List String :=
  ["exponential_smoothing", "arima", "linear_trend"]

/-- Python `s.replace('_', '')`: every underscore removed. -/
def removeUnderscores (s : String) : String :=
  ⟨s.data.filter fun ch => ch ≠ '_'⟩

/-- The component methods whose lookup
`self.models[method.replace('_', '')]` actually succeeds inside
`_forecast_ensemble`; a failed lookup raises `KeyError`, which the
surrounding `try/except: continue` silently swallows. -/
def ensembleResolvedMethods : List String :=
  ensembleComponentMethods.filter fun m =>
    predictorModelKeys.contains (removeUnderscores m)

/-- C2: the ensemble dispatch is broken.  `method.replace('_', '')` maps
`'exponential_smoothing'` to `'exponentialsmoothing'` and `'linear_trend'`
to `'lineartrend'`, neither of which is a key of `self.models` (the keys are
`'exp_smooth'` and `'linear_trend'`), so of the three intended component
estimators only `'arima'` is ever looked up successfully: the "ensemble"
averages a single component instead of three. -/
theorem ensemble_dispatch_bug :
    ensembleResolvedMethods = ["arima"]
    ∧ removeUnderscores "exponential_smoothing" = "exponentialsmoothing"
    ∧ removeUnderscores "linear_trend" = "lineartrend"
    ∧ predictorModelKeys.contains "exponentialsmoothing" = false
    ∧ predictorModelKeys.contains "lineartrend" = false
    ∧ predictorModelKeys.contains "exp_smooth" = true
    ∧ predictorModelKeys.contains "linear_trend" = true := by
  exact ⟨rfl, rfl, rfl, rfl, rfl, rfl, rfl⟩

/-- `np.mean` on a list of rationals (exact); `0` for the empty list, which
the callers below guard against. -/
def npMean (values : List ℚ) : ℚ :=
  values.sum / values.length

/-- The degenerate-input guard of
`ComprehensiveRwandaTradePredictor.forecast_time_series`:

    if not values or len(values) < 2:
        return \x7b'forecast': [np.mean(values) if values else 0] * periods, ...\x7d

Returns `some forecast` when the guard fires (fewer than two points) and
`none` when the series is long enough and a model method is dispatched
instead. -/
def forecastTimeSeriesShort (values : List ℚ) (periods : ℕ) : Option (List ℚ) :=
  if values.length < 2 then
    some (List.replicate periods (if values.isEmpty then 0 else npMean values))
  else none

/-- Exact rational least-squares line through `(i, values[i])`,
`i = 0 .. n-1`: the degree-1 `np.polyfit(x, values, 1)` of
`_forecast_linear_trend`, returned as `(slope, intercept)`.
(For `n < 2` the normal-equation denominator is `0`; rational division by
zero gives `0` here where NumPy would return a minimal-norm solution — no
claim depends on that case.) -/
def polyfit1 (values : List ℚ) : ℚ × ℚ :=
  let n : ℚ := values.length
  let xs : List ℚ := (List.range values.length).map fun i => (i : ℚ)
  let sx := xs.sum
  let sy := values.sum
  let sxx := (xs.map fun x => x * x).sum
  let sxy := ((xs.zip values).map fun p => p.1 * p.2).sum
  let d := n * sxx - sx * sx
  let slope := (n * sxy - sx * sy) / d
  let intercept := (sy - slope * sx) / n
  (slope, intercept)

/-- `ComprehensiveRwandaTradePredictor._forecast_linear_trend`, forecast list
only:

    slope, intercept = np.polyfit(x, values, 1)
    for i in range(1, periods + 1):
        pred = intercept + slope * (len(values) + i - 1)
        forecast.append(max(0, pred))

The Lean index `i` runs `0 .. periods-1`, so `len(values) + i` below equals
the source's `len(values) + i - 1`. -/
def forecastLinearTrend (values : List ℚ) (periods : ℕ) : List ℚ :=
  let sl := polyfit1 values
  (List.range periods).map fun i =>
    max 0 (sl.2 + sl.1 * ((values.length : ℚ) + (i : ℚ)))

/-- C3 counterexample: the forecast operation is *not* non-negative on every
path.  For the one-point series `[-5]`, `forecast_time_series` hits its
short-series guard and returns the raw historical mean `-5` repeated —
a negative forecast value. -/
theorem forecast_short_fallback_negative :
    forecastTimeSeriesShort [-5] 2 = some [-5, -5] ∧ ¬ (0 : ℚ) ≤ -5 := by
  constructor
  · norm_num [forecastTimeSeriesShort, npMean, List.replicate]
  · norm_num

/-- C3 (amended): only the linear-trend estimator floors its forecast at `0`
(`max(0, pred)` in `_forecast_linear_trend`): every value it returns is
non-negative, for every input series and horizon.  The short-series mean
fallback (and the model-based estimators) return unfloored values. -/
theorem linear_trend_forecast_nonneg (values : List ℚ) (periods : ℕ) (x : ℚ)
    (hx : x ∈ forecastLinearTrend values periods) : 0 ≤ x := by
  simp only [forecastLinearTrend, List.mem_map] at hx
  obtain ⟨i, _, rfl⟩ := hx
  exact le_max_left 0 _

/-- C3 witness: the linear-trend forecast of `[1, 2]` one step ahead is
`[3]`, and the theorem applied to this member gives `0 ≤ 3`. -/
theorem linear_trend_forecast_nonneg_witness :
    forecastLinearTrend [1, 2] 1 = [3] ∧ (0 : ℚ) ≤ 3 := by
  have hval : forecastLinearTrend [1, 2] 1 = [3] := by
    norm_num [forecastLinearTrend, polyfit1, List.range_succ]
  refine ⟨hval, linear_trend_forecast_nonneg [1, 2] 1 3 ?_⟩
  rw [hval]
  exact List.mem_singleton.mpr rfl

/-- `str(cell).strip() if pd.notna(cell) else ''`, the identifier-cell
normalization applied by every row extractor.  A numeric cell is rendered
with `toString`; Python's `str(float)` spells integral floats `"5.0"` rather
than `"5"`, but no claim below inspects the rendered text of a numeric
identifier, only string and blank identifiers. -/
def pyStrStrip (c : Cell) : String :=
  match c with
  | .blank => ""
  | .num q => pyStrip (toString q)
  | .str s => pyStrip s

/-- The reserved sentinel list of
`EnhancedExportAnalyzer.process_country_exports` (line 131):

    if not country_name or country_name.lower() in ['nan', 'source:', 'total', '']:
        continue
-/
def sentinels : List String := ["nan", "source:", "total", ""]

/-- Numeric coercion of one period cell in
`EnhancedExportAnalyzer.process_country_exports`: missing cells are passed
over (`pd.notna` guard), strings go through `float(...)` whose `ValueError`
is caught and the cell skipped. -/
def coerceCell (c : Cell) : Option ℚ :=
  match c with
  | .blank => none
  | .num q => some q
  | .str s => pyFloat? s

/-- One row of `EnhancedExportAnalyzer.process_country_exports`
(`enhanced_export_analyzer.py` lines 127-161): the identifier cell is
normalized and checked against the sentinel list; each period cell is
coerced and kept (keyed by its column position) only when the coercion
succeeds and the value is `> 0`; the row is emitted only when the resulting
`quarterly_values` map is non-empty.  The stored name is the trimmed raw
name (the cosmetic `clean_country_name` title-casing does not affect
emission and is not modelled). -/
def processCountryRow (ident : Cell) (periods : List Cell) :
    Option (String × List (ℕ × ℚ)) :=
  let country := pyStrStrip ident
  if country = "" ∨ pyLower country ∈ sentinels then none
  else
    let qvals := periods.enum.filterMap fun p =>
      match coerceCell p.2 with
      | some v => if 0 < v then some (p.1, v) else none
      | none => none
    if qvals = [] then none else some (country, qvals)

/-- Python `needle in hay` on strings: substring test. -/
def containsSub (needle hay : String) : Bool :=
  decide (needle.data <:+: hay.data)

/-- One row of `TradeAnalyticsPipeline.process_country_data`
(`trade_analytics_pipeline.py` lines 129-155): the skip test is

    if not country_name or country_name == 'nan' or 'Source:' in country_name
       or '*' in country_name: continue

(exact, case-sensitive `'nan'`; substring tests for `'Source:'` and `'*'`;
no `'total'` test), each period cell is coerced with `float(...)` with
failures skipped (no positivity filter), and the row is emitted only when
`country_data['values']` is non-empty. -/
def pipelineCountryRow (ident : Cell) (periods : List Cell) :
    Option (String × List (ℕ × ℚ)) :=
  let country := pyStrStrip ident
  if country = "" ∨ country = "nan" ∨ containsSub "Source:" country
      ∨ containsSub "*" country then none
  else
    let vals := periods.enum.filterMap fun p =>
      (coerceCell p.2).map fun v => (p.1, v)
    if vals = [] then none else some (country, vals)

/-- C5 counterexample: `trade_analytics_pipeline.process_country_data` does
*not* skip rows whose identifier is `"Total"` — its sentinel test checks only
blank, the exact string `'nan'`, and the substrings `'Source:'` and `'*'` —
so a `Total` row carrying a numeric cell is emitted as a record. -/
theorem pipeline_total_row_emitted :
    pipelineCountryRow (Cell.str "Total") [Cell.num 5] = some ("Total", [(0, 5)]) := by
  decide

/-- C5 (amended): `enhanced_export_analyzer.process_country_exports` skips —
and never emits a record for — every row whose trimmed, lower-cased
identifier is a member of the sentinel set `\x7b"nan", "source:", "total", ""\x7d`
(so a `"Total"` identifier in any letter case is never emitted there);
`trade_analytics_pipeline.process_country_data`, however, tests only blank,
the exact string `'nan'`, and the substrings `'Source:'`/`'*'`, so a
`"Total"` row is emitted by that extractor
(`pipeline_total_row_emitted`). -/
theorem sentinel_rows_skipped (ident : Cell) (periods : List Cell)
    (h : pyLower (pyStrStrip ident) ∈ sentinels) :
    processCountryRow ident periods = none := by
  simp only [processCountryRow]
  rw [if_pos (Or.inr h)]

/-- C5 witness: a row whose identifier cell is the string `"Total"` is
skipped by the enhanced analyzer's extractor. -/
theorem sentinel_rows_skipped_witness :
    pyLower (pyStrStrip (Cell.str "Total")) ∈ sentinels
    ∧ processCountryRow (Cell.str "Total") [Cell.num 5] = none := by
  refine ⟨by decide, sentinel_rows_skipped (Cell.str "Total") [Cell.num 5] (by decide)⟩

/-- Python `str(raw).replace('.', '').isdigit()`, the test
`process_commodity_row` applies to the raw identifier before deciding how to
normalize it (dots removed, remainder non-empty and all digits). -/
def digitCheck (cs : List Char) : Bool :=
  let t := cs.filter fun ch => ch ≠ '.'
  t ≠ [] ∧ t.all Char.isDigit

/-- The SITC-identifier normalization of
`CommodityDataProcessor.process_commodity_row` (line 115-122):

    if pd.isna(raw): return None
    sitc = str(int(float(raw))) if str(raw).replace('.', '').isdigit()
           else str(raw).strip()

`int(...)` truncates toward zero; on the digit-check branch the value is
non-negative, so truncation is `Rat.floor`.  A `ValueError` from
`float(...)` (e.g. two decimal points) is caught by the enclosing
`try/except`, which makes the row yield `None`.  A numeric cell is rendered
with `toString`, which differs from Python's `str(float)` for non-integral
values (`"11/2"` vs `"5.5"`); no claim below uses a non-integral numeric
identifier. -/
def sitcNormalize (c : Cell) : Option String :=
  match c with
  | .blank => none
  | c =>
    let raw := match c with
      | .num q => toString q
      | .str s => s
      | .blank => ""
    if digitCheck raw.data then
      match pyFloat? raw with
      | some q => some (toString q.floor)
      | none => none
    else some (pyStrip raw)

/-- The emitted slice of one `process_commodity_row` record: the normalized
SITC section and the `quarterly_data` map over the nine quarter columns. -/
structure CommodityRec where
  sitc : String
  quarterly : List (ℕ × ℚ)
  deriving DecidableEq, Repr

/-- Numeric coercion of one quarter cell in `process_commodity_row`
(lines 148-160): a missing cell is passed over (`pd.isna` → `continue`);
otherwise `float(value)` is attempted and a `ValueError`/`TypeError` records
`0` for that quarter. -/
def quarterCoerce (c : Cell) : Option ℚ :=
  match c with
  | .blank => none
  | .num q => some q
  | .str s => some ((pyFloat? s).getD 0)

/-- `CommodityDataProcessor.process_commodity_row`
(`commodity_data_processor.py` lines 111-196), restricted to the identifier
column and the nine quarter columns (columns 1-9; the share/growth/metadata
columns and the derived `calculate_metrics_v3` fields extend the emitted
dictionary but play no part in whether a row is emitted): the row yields
`None` exactly when the identifier cell is missing or does not normalize to
a single digit `'0'..'9'`; otherwise a record is returned — whether or not
any quarter cell held data. -/
def processCommodityRow (ident : Cell) (periods : List Cell) :
    Option CommodityRec :=
  match sitcNormalize ident with
  | none => none
  | some s =>
    if s ∈ ["0", "1", "2", "3", "4", "5", "6", "7", "8", "9"] then
      some ⟨s, periods.enum.filterMap fun p =>
        (quarterCoerce p.2).map fun v => (p.1, v)⟩
    else none

/-- C4 counterexample: a row with identifier `"5"` and all nine period cells
blank *does* yield a record from `process_commodity_row` — one whose
quarterly map is empty — contradicting the claim that such a row produces no
Record. -/
theorem commodity_row_empty_periods_emitted :
    processCommodityRow (Cell.str "5") (List.replicate 9 Cell.blank)
      = some ⟨"5", []⟩ := by
  decide

/-- C4 (amended): in `enhanced_export_analyzer.process_country_exports` a
row whose `period_values` map ends up empty is dropped (every emitted record
has a non-empty quarterly map, and an all-blank period row is never
emitted); `commodity_data_processor.process_commodity_row`, however, emits a
record for a valid SITC identifier even when every period cell is blank
(`commodity_row_empty_periods_emitted`). -/
theorem empty_period_rows :
    (∀ (ident : Cell) (periods : List Cell) (r : String × List (ℕ × ℚ)),
      processCountryRow ident periods = some r → r.2 ≠ [])
    ∧ (∀ (ident : Cell) (periods : List Cell),
      (∀ c ∈ periods, c = Cell.blank) → processCountryRow ident periods = none) := by
  constructor
  · intro ident periods r hr
    simp only [processCountryRow] at hr
    split at hr
    · exact absurd hr (by simp)
    · split at hr
      · exact absurd hr (by simp)
      · rename_i hne
        obtain rfl : r = (pyStrStrip ident, _) := (Option.some_inj.mp hr).symm
        exact hne
  · intro ident periods hblank
    simp only [processCountryRow]
    split
    · rfl
    · rw [if_pos]
      have : ∀ p ∈ periods.enum, coerceCell p.2 = none := by
        intro p hp
        have := hblank p.2 (List.snd_mem_of_mem_enum hp)
        rw [this]
        rfl
      simp only [List.filterMap_eq_nil_iff]
      intro p hp
      rw [this p hp]

/-- C4 witness: the all-blank clause applied to a concrete one-cell row, and
the non-emptiness clause applied to an emitted record. -/
theorem empty_period_rows_witness :
    processCountryRow (Cell.str "France") [Cell.blank] = none
    ∧ (("France", [((0 : ℕ), (5 : ℚ))]) : String × List (ℕ × ℚ)).2 ≠ [] := by
  constructor
  · exact empty_period_rows.2 (Cell.str "France") [Cell.blank] (by decide)
  · exact empty_period_rows.1 (Cell.str "France") [Cell.num 5] _ (by decide)

/-- A Python value tree of the kind assembled into a Report and handed to
`save_json` / `save_predictions`: native ints, floats (with an explicit
is-NaN flag), numpy integer / floating / bool scalars, strings, `None`,
lists, and string-keyed dicts.  (Raw `np.ndarray` nodes are listified by the
scripts before being stored in a Report, so they are not part of the Report
value domain.) -/
inductive PyVal where
  | int (n : ℤ)
  | float (nan : Bool) (q : ℚ)
  | npint (n : ℤ)
  | npfloat (nan : Bool) (q : ℚ)
  | npbool (b : Bool)
  | bool (b : Bool)
  | str (s : String)
  | null
  | list (xs : List PyVal)
  | dict (kvs : List (String × PyVal))

mutual
/-- `EnhancedExportAnalyzer.save_json.convert_numpy_types`
(`enhanced_export_analyzer.py` lines 861-878):

    np.integer          -> int(obj)
    np.floating         -> val = float(obj); None if np.isnan(val) else val
    np.bool_            -> bool(obj)
    dict                -> values converted recursively
    list                -> items converted recursively
    float with isnan    -> None
    anything else       -> unchanged
-/
def convertVal : PyVal → PyVal
  | .npint n => .int n
  | .npfloat nan q => if nan then .null else .float false q
  | .npbool b => .bool b
  | .dict kvs => .dict (convertDict kvs)
  | .list xs => .list (convertList xs)
  | .float nan q => if nan then .null else .float nan q
  | .int n => .int n
  | .bool b => .bool b
  | .str s => .str s
  | .null => .null

/-- Item-wise conversion of a list node. -/
def convertList : List PyVal → List PyVal
  | [] => []
  | x :: tl => convertVal x :: convertList tl

/-- Value-wise conversion of a dict node (keys untouched). -/
def convertDict : List (String × PyVal) → List (String × PyVal)
  | [] => []
  | (k, v) :: tl => (k, convertVal v) :: convertDict tl
end

mutual
/-- A raw NaN occurs somewhere in the value tree (as a native float or as a
numpy floating scalar). -/
def hasNaNVal : PyVal → Bool
  | .float nan _ => nan
  | .npfloat nan _ => nan
  | .list xs => hasNaNList xs
  | .dict kvs => hasNaNDict kvs
  | _ => false

/-- A raw NaN occurs in some item of the list. -/
def hasNaNList : List PyVal → Bool
  | [] => false
  | x :: tl => hasNaNVal x || hasNaNList tl

/-- A raw NaN occurs in some value of the dict. -/
def hasNaNDict : List (String × PyVal) → Bool
  | [] => false
  | (_, v) :: tl => hasNaNVal v || hasNaNDict tl
end

/-- Size-bounded version of the no-NaN property, for the three mutually
recursive traversals at once. -/
theorem convert_no_nan_aux (n : ℕ) :
    (∀ v : PyVal, sizeOf v ≤ n → hasNaNVal (convertVal v) = false)
    ∧ (∀ xs : List PyVal, sizeOf xs ≤ n → hasNaNList (convertList xs) = false)
    ∧ (∀ kvs : List (String × PyVal), sizeOf kvs ≤ n → hasNaNDict (convertDict kvs) = false) := by
  induction n with
  | zero =>
    refine ⟨fun v hv => absurd hv ?_, fun xs hxs => absurd hxs ?_, fun kvs hkvs => absurd hkvs ?_⟩
    · cases v <;> simp
    · cases xs <;> simp
    · cases kvs <;> simp
  | succ n ih =>
    obtain ⟨ihv, ihl, ihd⟩ := ih
    refine ⟨fun v hv => ?_, fun xs hxs => ?_, fun kvs hkvs => ?_⟩
    · cases v with
      | npfloat nan q => cases nan <;> simp [convertVal, hasNaNVal]
      | float nan q => cases nan <;> simp [convertVal, hasNaNVal]
      | list xs =>
        have hsz : sizeOf xs ≤ n := by
          have := PyVal.list.sizeOf_spec xs
          omega
        simpa [convertVal, hasNaNVal] using ihl xs hsz
      | dict kvs =>
        have hsz : sizeOf kvs ≤ n := by
          have := PyVal.dict.sizeOf_spec kvs
          omega
        simpa [convertVal, hasNaNVal] using ihd kvs hsz
      | _ => simp [convertVal, hasNaNVal]
    · cases xs with
      | nil => simp [convertList, hasNaNList]
      | cons x tl =>
        have hx : sizeOf x ≤ n := by
          have := List.cons.sizeOf_spec x tl
          omega
        have htl : sizeOf tl ≤ n := by
          have := List.cons.sizeOf_spec x tl
          omega
        simp [convertList, hasNaNList, ihv x hx, ihl tl htl]
    · cases kvs with
      | nil => simp [convertDict, hasNaNDict]
      | cons kv tl =>
        obtain ⟨k, v⟩ := kv
        have hv2 : sizeOf v ≤ n := by
          have h1 := List.cons.sizeOf_spec (k, v) tl
          have h2 := Prod.mk.sizeOf_spec k v
          omega
        have htl : sizeOf tl ≤ n := by
          have := List.cons.sizeOf_spec (k, v) tl
          omega
        simp [convertDict, hasNaNDict, ihv v hv2, ihd tl htl]

mutual
/-- `ComprehensiveRwandaTradePredictor.save_predictions.convert_types`
(`rwanda_trade_predictor.py` lines 753-765):

    np.integer  -> int(obj)
    np.floating -> float(obj) if not np.isnan(obj) else None
    np.ndarray  -> obj.tolist()
    dict        -> values converted recursively
    list        -> items converted recursively
    else        -> unchanged

Unlike the enhanced analyzer's `convert_numpy_types`, there is no branch
for a *native* Python float holding NaN: such a value falls to the final
`else` and is returned unchanged. -/
def convertTypesVal : PyVal → PyVal
  | .npint n => .int n
  | .npfloat nan q => if nan then .null else .float false q
  | .dict kvs => .dict (convertTypesDict kvs)
  | .list xs => .list (convertTypesList xs)
  | v => v

/-- Item-wise `convert_types` on a list node. -/
def convertTypesList : List PyVal → List PyVal
  | [] => []
  | x :: tl => convertTypesVal x :: convertTypesList tl

/-- Value-wise `convert_types` on a dict node (keys untouched). -/
def convertTypesDict : List (String × PyVal) → List (String × PyVal)
  | [] => []
  | (k, v) :: tl => (k, convertTypesVal v) :: convertTypesDict tl
end

mutual
/-- A *native* Python float NaN occurs somewhere in the value tree (numpy
floating NaN scalars are not counted). -/
def hasPyNaNVal : PyVal → Bool
  | .float nan _ => nan
  | .list xs => hasPyNaNList xs
  | .dict kvs => hasPyNaNDict kvs
  | _ => false

/-- A native-float NaN occurs in some item of the list. -/
def hasPyNaNList : List PyVal → Bool
  | [] => false
  | x :: tl => hasPyNaNVal x || hasPyNaNList tl

/-- A native-float NaN occurs in some value of the dict. -/
def hasPyNaNDict : List (String × PyVal) → Bool
  | [] => false
  | (_, v) :: tl => hasPyNaNVal v || hasPyNaNDict tl
end

/-- `CommodityDataProcessor.save_json`
(`commodity_data_processor.py` lines 293-298) hands its data to `json.dump`
with no conversion pass at all: the Report value tree is serialized
exactly as assembled. -/
def commoditySaveJsonConvert (v : PyVal) : PyVal := v

/-- Size-bounded version of the conditional no-NaN property of the
predictor's `convert_types`, for the three mutually recursive traversals at
once. -/
theorem convert_types_no_nan_aux (n : ℕ) :
    (∀ v : PyVal, sizeOf v ≤ n → hasPyNaNVal v = false →
      hasNaNVal (convertTypesVal v) = false)
    ∧ (∀ xs : List PyVal, sizeOf xs ≤ n → hasPyNaNList xs = false →
      hasNaNList (convertTypesList xs) = false)
    ∧ (∀ kvs : List (String × PyVal), sizeOf kvs ≤ n → hasPyNaNDict kvs = false →
      hasNaNDict (convertTypesDict kvs) = false) := by
  induction n with
  | zero =>
    refine ⟨fun v hv => absurd hv ?_, fun xs hxs => absurd hxs ?_, fun kvs hkvs => absurd hkvs ?_⟩
    · cases v <;> simp
    · cases xs <;> simp
    · cases kvs <;> simp
  | succ n ih =>
    obtain ⟨ihv, ihl, ihd⟩ := ih
    refine ⟨fun v hv hnan => ?_, fun xs hxs hnan => ?_, fun kvs hkvs hnan => ?_⟩
    · cases v with
      | npfloat nan q => cases nan <;> simp [convertTypesVal, hasNaNVal]
      | float nan q =>
        simp only [hasPyNaNVal] at hnan
        simp [convertTypesVal, hasNaNVal, hnan]
      | list xs =>
        have hsz : sizeOf xs ≤ n := by
          have := PyVal.list.sizeOf_spec xs
          omega
        simp only [hasPyNaNVal] at hnan
        simpa [convertTypesVal, hasNaNVal] using ihl xs hsz hnan
      | dict kvs =>
        have hsz : sizeOf kvs ≤ n := by
          have := PyVal.dict.sizeOf_spec kvs
          omega
        simp only [hasPyNaNVal] at hnan
        simpa [convertTypesVal, hasNaNVal] using ihd kvs hsz hnan
      | _ => simp [convertTypesVal, hasNaNVal]
    · cases xs with
      | nil => simp [convertTypesList, hasNaNList]
      | cons x tl =>
        have hx : sizeOf x ≤ n := by
          have := List.cons.sizeOf_spec x tl
          omega
        have htl : sizeOf tl ≤ n := by
          have := List.cons.sizeOf_spec x tl
          omega
        simp only [hasPyNaNList, Bool.or_eq_false_iff] at hnan
        simp [convertTypesList, hasNaNList, ihv x hx hnan.1, ihl tl htl hnan.2]
    · cases kvs with
      | nil => simp [convertTypesDict, hasNaNDict]
      | cons kv tl =>
        obtain ⟨k, v⟩ := kv
        have hv2 : sizeOf v ≤ n := by
          have h1 := List.cons.sizeOf_spec (k, v) tl
          have h2 := Prod.mk.sizeOf_spec k v
          omega
        have htl : sizeOf tl ≤ n := by
          have := List.cons.sizeOf_spec (k, v) tl
          omega
        simp only [hasPyNaNDict, Bool.or_eq_false_iff] at hnan
        simp [convertTypesDict, hasNaNDict, ihv v hv2 hnan.1, ihd tl htl hnan.2]

/-- C6 counterexample: a Report holding a native-float NaN reaches emission
with the NaN intact at two of the three cited serializers — the predictor's
`convert_types` returns a native-float NaN unchanged (its scrub only covers
numpy floating scalars), and `commodity_data_processor.save_json` applies
no conversion at all — refuting the claim that every Report handed to the
serializer is free of raw NaN. -/
theorem nan_passes_serializers :
    convertTypesVal (PyVal.float true 0) = PyVal.float true 0
    ∧ commoditySaveJsonConvert (PyVal.float true 0) = PyVal.float true 0
    ∧ hasNaNVal (PyVal.float true 0) = true := by
  refine ⟨by simp [convertTypesVal], rfl, by simp [hasNaNVal]⟩

/-- C6 (amended): only `enhanced_export_analyzer`'s serializer conversion
guarantees NaN-freedom unconditionally — for every value tree, the output
of `convert_numpy_types` contains no NaN anywhere (every NaN leaf, native
float or numpy scalar, is rewritten to `None`).  The predictor's
`convert_types` scrubs only numpy floating NaNs: its output is NaN-free
only for trees that contain no *native*-float NaN, and
`commodity_data_processor.save_json` applies no conversion at all
(`nan_passes_serializers`). -/
theorem serializer_nan_scrub :
    (∀ v : PyVal, hasNaNVal (convertVal v) = false)
    ∧ (∀ v : PyVal, hasPyNaNVal v = false → hasNaNVal (convertTypesVal v) = false) :=
  ⟨fun v => (convert_no_nan_aux (sizeOf v)).1 v le_rfl,
   fun v h => (convert_types_no_nan_aux (sizeOf v)).1 v le_rfl h⟩

/-- C6 witness: a tree whose only NaN is a numpy floating scalar has no
native-float NaN, and the predictor's conversion of it is NaN-free (the
numpy NaN became `None`). -/
theorem serializer_nan_scrub_witness :
    hasPyNaNVal (PyVal.list [PyVal.npfloat true 0, PyVal.int 3]) = false
    ∧ hasNaNVal (convertTypesVal (PyVal.list [PyVal.npfloat true 0, PyVal.int 3])) = false := by
  have h : hasPyNaNVal (PyVal.list [PyVal.npfloat true 0, PyVal.int 3]) = false := by
    simp [hasPyNaNVal, hasPyNaNList]
  exact ⟨h, serializer_nan_scrub.2 _ h⟩

/-- `TradeAnalyticsPipeline.perform_hhi_analysis.calculate_hhi`
(`trade_analytics_pipeline.py` lines 751-753):

    return sum(share ** 2 for share in shares)
-/
def calculate_hhi (shares : List ℚ) : ℚ :=
  (shares.map fun s => s ^ 2).sum

/-- `TradeAnalyticsPipeline.perform_hhi_analysis.interpret_hhi`
(`trade_analytics_pipeline.py` lines 806-814):

    if hhi_value < 0.01:   return "Highly competitive market"
    elif hhi_value < 0.15: return "Unconcentrated market"
    elif hhi_value < 0.25: return "Moderately concentrated"
    else:                  return "Highly concentrated market"
-/
def interpret_hhi (h : ℚ) : String :=
  if h < 0.01 then "Highly competitive market"
  else if h < 0.15 then "Unconcentrated market"
  else if h < 0.25 then "Moderately concentrated"
  else "Highly concentrated market"

/-- C8: `calculate_hhi` is the sum of squared shares, so `n` equal shares of
`1/n` give exactly `1/n` and the single full share `[1]` gives `1`; and the
classification boundaries of `interpret_hhi` are exactly `< 0.01` highly
competitive, `< 0.15` unconcentrated, `< 0.25` moderately concentrated, and
`≥ 0.25` highly concentrated. -/
theorem hhi_spec :
    (∀ n : ℕ, 1 ≤ n →
      calculate_hhi (List.replicate n (1 / (n : ℚ))) = 1 / (n : ℚ))
    ∧ calculate_hhi [1] = 1
    ∧ (∀ h : ℚ,
        (interpret_hhi h = "Highly competitive market" ↔ h < 0.01)
        ∧ (interpret_hhi h = "Unconcentrated market" ↔ 0.01 ≤ h ∧ h < 0.15)
        ∧ (interpret_hhi h = "Moderately concentrated" ↔ 0.15 ≤ h ∧ h < 0.25)
        ∧ (interpret_hhi h = "Highly concentrated market" ↔ 0.25 ≤ h)) := by
  refine ⟨fun n hn => ?_, by norm_num [calculate_hhi], fun h => ?_⟩
  · have hne : (n : ℚ) ≠ 0 := Nat.cast_ne_zero.mpr (by omega)
    rw [calculate_hhi, List.map_replicate, List.sum_replicate, nsmul_eq_mul]
    field_simp
    ring
  · unfold interpret_hhi
    split_ifs with h1 h2 h3
    · exact ⟨⟨fun _ => h1, fun _ => rfl⟩,
        ⟨fun he => absurd he (by decide), fun hc => absurd hc.1 (not_le.mpr h1)⟩,
        ⟨fun he => absurd he (by decide),
          fun hc => absurd hc.1 (not_le.mpr (lt_trans h1 (by norm_num)))⟩,
        ⟨fun he => absurd he (by decide),
          fun hc => absurd hc (not_le.mpr (lt_trans h1 (by norm_num)))⟩⟩
    · exact ⟨⟨fun he => absurd he (by decide), fun hlt => absurd hlt h1⟩,
        ⟨fun _ => ⟨not_lt.mp h1, h2⟩, fun _ => rfl⟩,
        ⟨fun he => absurd he (by decide), fun hc => absurd hc.1 (not_le.mpr h2)⟩,
        ⟨fun he => absurd he (by decide),
          fun hc => absurd hc (not_le.mpr (lt_trans h2 (by norm_num)))⟩⟩
    · exact ⟨⟨fun he => absurd he (by decide), fun hlt => absurd hlt h1⟩,
        ⟨fun he => absurd he (by decide), fun hc => absurd hc.2 h2⟩,
        ⟨fun _ => ⟨not_lt.mp h2, h3⟩, fun _ => rfl⟩,
        ⟨fun he => absurd he (by decide), fun hc => absurd hc (not_le.mpr h3)⟩⟩
    · exact ⟨⟨fun he => absurd he (by decide), fun hlt => absurd hlt h1⟩,
        ⟨fun he => absurd he (by decide), fun hc => absurd hc.2 h2⟩,
        ⟨fun he => absurd he (by decide), fun hc => absurd hc.2 h3⟩,
        ⟨fun _ => not_lt.mp h3, fun _ => rfl⟩⟩

/-- C8 witness: four equal shares of `1/4` give an HHI of exactly `1/4`, and
the boundary clauses evaluated at `0.2` classify as moderately
concentrated. -/
theorem hhi_spec_witness :
    calculate_hhi (List.replicate 4 (1 / ((4 : ℕ) : ℚ))) = 1 / ((4 : ℕ) : ℚ)
    ∧ (interpret_hhi 0.2 = "Moderately concentrated" ↔ (0.15 : ℚ) ≤ 0.2 ∧ (0.2 : ℚ) < 0.25) :=
  ⟨hhi_spec.1 4 (by norm_num), (hhi_spec.2.2 0.2).2.2.1⟩

/-- The share-percentage pass of `process_exports_commodity`
(`process_exports_commodity.py` lines 205-215), acting on the
`total_exports` column of the extracted records:

    total_all_exports = sum([c['total_exports'] for c in commodities_data])
    for commodity in commodities_data:
        if total_all_exports > 0:
            commodity['share_percentage'] =
                (commodity['total_exports'] / total_all_exports) * 100
        else:
            commodity['share_percentage'] = 0
-/
def assignShares (totals : List ℚ) : List ℚ :=
  let total_all := totals.sum
  totals.map fun t => if 0 < total_all then t / total_all * 100 else 0

/-- Helper: a common factor pulls out of a list sum. -/
theorem sum_map_mul_factor (l : List ℚ) (r : ℚ) :
    (l.map fun x => x * r).sum = l.sum * r := by
  induction l with
  | nil => simp
  | cons a tl ih => simp [ih, add_mul]

/-- C9: each record's share is its total divided by the grand total times
100, so whenever the grand total of the extracted records is strictly
positive the assigned shares sum to exactly 100; when the grand total is not
strictly positive, every assigned share is 0. -/
theorem share_percentage_spec (totals : List ℚ) :
    (0 < totals.sum →
      assignShares totals = totals.map fun t => t / totals.sum * 100)
    ∧ (0 < totals.sum → (assignShares totals).sum = 100)
    ∧ (¬ 0 < totals.sum → ∀ s ∈ assignShares totals, s = 0) := by
  refine ⟨fun hT => ?_, fun hT => ?_, fun hT => ?_⟩
  · simp [assignShares, if_pos hT]
  · have hne : totals.sum ≠ 0 := ne_of_gt hT
    have hfun : (fun t => if 0 < totals.sum then t / totals.sum * 100 else 0)
        = fun t : ℚ => t * (100 / totals.sum) := by
      funext t
      rw [if_pos hT]
      ring
    rw [assignShares]
    simp only [hfun, sum_map_mul_factor]
    field_simp
  · intro s hs
    simp only [assignShares, if_neg hT, List.mem_map] at hs
    obtain ⟨t, -, rfl⟩ := hs
    rfl

/-- C9 witness: totals `[1, 3]` have positive sum `4` and their shares
`[25, 75]` sum to `100`; totals `[0, 0]` yield all-zero shares. -/
theorem share_percentage_spec_witness :
    (0 : ℚ) < ([1, 3] : List ℚ).sum
    ∧ (assignShares [1, 3]).sum = 100
    ∧ (∀ s ∈ assignShares [0, 0], s = 0) := by
  have hpos : (0 : ℚ) < ([1, 3] : List ℚ).sum := by norm_num
  refine ⟨hpos, (share_percentage_spec [1, 3]).2.1 hpos, ?_⟩
  exact (share_percentage_spec [0, 0]).2.2 (by norm_num)

/-- Numeric coercion of one period cell in the predictor's country and
commodity extractors (`rwanda_trade_predictor.py` lines 183-188 and
220-225):

    try:
        val = float(row.iloc[col_idx]) if pd.notna(row.iloc[col_idx]) else 0
        values.append(val)
    except:
        values.append(0)

A missing cell and a non-coercible cell are both recorded as `0`. -/
def predCoerce (c : Cell) : ℚ :=
  match c with
  | .blank => 0
  | .num q => q
  | .str s => (pyFloat? s).getD 0

/-- The emission decision of `_process_country_data` /
`_process_commodity_data` for one data row (lines 190-191 and 227-231):

    if values and sum(values) > 0:
        countries[country] = values
-/
def predProcessRow (cells : List Cell) : Option (List ℚ) :=
  let values := cells.map predCoerce
  if values ≠ [] ∧ 0 < values.sum then some values else none

/-- C10: in the predictor's extractors every missing cell is recorded as the
same `0` a zero-valued cell gives (so "no data" and "zero activity" are
indistinguishable downstream), every non-coercible string cell is recorded
as `0`, a row is emitted only if its recorded values sum to strictly more
than `0`, and consequently a row that is all blank, all zero, or of
non-positive sum is never emitted. -/
theorem predictor_row_emission :
    predCoerce Cell.blank = predCoerce (Cell.num 0)
    ∧ (∀ s, pyFloat? s = none → predCoerce (Cell.str s) = 0)
    ∧ (∀ cells vs, predProcessRow cells = some vs → 0 < vs.sum)
    ∧ (∀ cells, (cells.map predCoerce).sum ≤ 0 → predProcessRow cells = none)
    ∧ (∀ n, predProcessRow (List.replicate n Cell.blank) = none) := by
  refine ⟨rfl, fun s h => by simp [predCoerce, h], fun cells vs h => ?_, fun cells h => ?_, fun n => ?_⟩
  · simp only [predProcessRow] at h
    split at h
    · rename_i hcond
      cases h
      exact hcond.2
    · cases h
  · simp only [predProcessRow]
    rw [if_neg]
    rintro ⟨-, hpos⟩
    linarith
  · simp only [predProcessRow]
    rw [if_neg]
    rintro ⟨-, hpos⟩
    have : (List.replicate n Cell.blank).map predCoerce = List.replicate n (0 : ℚ) := by
      simp [predCoerce]
    rw [this, List.sum_replicate, smul_zero] at hpos
    exact lt_irrefl 0 hpos

/-- C10 witness: a row with one positive cell is emitted with positive sum;
a row of two blanks is dropped. -/
theorem predictor_row_emission_witness :
    predProcessRow [Cell.num 1] = some [1]
    ∧ (0 : ℚ) < ([(1 : ℚ)] : List ℚ).sum
    ∧ predProcessRow (List.replicate 2 Cell.blank) = none := by
  have h : predProcessRow [Cell.num 1] = some [1] := by
    norm_num [predProcessRow, predCoerce]
  exact ⟨h, predictor_row_emission.2.2.1 [Cell.num 1] [1] h,
    predictor_row_emission.2.2.2.2 2⟩

/-- `process_exports_commodity.calculate_growth_rate`
(`process_exports_commodity.py` lines 25-29):

    if previous == 0 or pd.isna(previous): return 0
    return ((current - previous) / previous) * 100

The values reaching it have already been coerced with
`pd.to_numeric(...).fillna(0)`, so the `isna` test is never true. -/
def calculate_growth_rate (current previous : ℚ) : ℚ :=
  if previous = 0 then 0 else (current - previous) / previous * 100

/-- The trend labeling of `process_exports_commodity`
(`process_exports_commodity.py` lines 164-201): the label is derived from
the latest quarter-over-quarter growth rate, not from the last three
points:

    growth_rate = calculate_growth_rate(values[-1], values[-2]) if len >= 2 else 0
    if growth_rate > 10:    trend = "Strong Growth"
    elif growth_rate > 0:   trend = "Moderate Growth"
    elif growth_rate < -10: trend = "Declining"
    else:                   trend = "Stable"
-/
def exportsCommodityTrend (values : List ℚ) : String :=
  let latest := if values.isEmpty then 0 else values.getLastI
  let growth :=
    if 2 ≤ values.length then calculate_growth_rate latest values.dropLast.getLastI
    else 0
  if 10 < growth then "Strong Growth"
  else if 0 < growth then "Moderate Growth"
  else if growth < -10 then "Declining"
  else "Stable"

/-- C1 counterexample: the claim's universal last-three-points rule fails at
its second cited site — `process_exports_commodity` labels the series
`[90, 100, 80]` "Declining" (latest growth `(80-100)/100*100 = -20 < -10`),
while `analyze_trend` labels the same series "Stable": the two cited
implementations disagree, so the trend label is not computed from the last
three points by the stated rule at every cited site. -/
theorem exports_commodity_trend_declining :
    exportsCommodityTrend [90, 100, 80] = "Declining"
    ∧ analyze_trend [90, 100, 80] = "Stable"
    ∧ ("Declining" : String) ≠ "Stable" := by
  refine ⟨?_, by decide, by decide⟩
  norm_num [exportsCommodityTrend, calculate_growth_rate, List.getLastI, List.dropLast]
